import Mathlib

/-!
# Chat2: wire codec, authentication gate, server message handler and client session

A shallow embedding of `src/index.js` (server) and `src/static/script.js`
(browser client), followed by theorems about the embedded functions.

Modelling conventions.

* A JavaScript string is modelled as its list of characters (`Str`).  Every
  string that reaches the embedded functions is well-formed text (WebSocket
  text frames, database text, HTTP headers), and every separator or pattern
  used by the program is one character of the Basic Multilingual Plane, so
  splitting and joining on characters agrees with the UTF-16 semantics.
* A JavaScript number is modelled by `JSNum`: an integer or `NaN`.  The
  numbers that the two programs print and read back (row ids, reply ids,
  timestamps) are integers.  Where the server reads arbitrary client text
  with `Number`, the built-in is a parameter (`parseMessageWith`).
* `undefined` and `null` are modelled by `Option.none`.
-/

namespace Chat2

/-- A JavaScript string, as the list of its characters. -/
abbrev Str := List Char

/-- A JavaScript number: an integer value, or `NaN`. -/
inductive JSNum where
  | int (n : Int)
  | nan
  deriving DecidableEq, Repr

/-! ## String primitives -/

/-- `s.split(sep)` for a one-character separator: the pieces between the
occurrences of `sep`; the empty string splits into one empty piece. -/
def split (sep : Char) : Str → List Str
  | [] => [[]]
  | c :: cs =>
    if c = sep then [] :: split sep cs
    else
      match split sep cs with
      | [] => [[c]]
      | piece :: pieces => (c :: piece) :: pieces

/-- `parts.join(sep)`: the parts with `sep` between neighbours; the empty
array joins to the empty string. -/
def join (sep : Str) : List Str → Str
  | [] => []
  | [part] => part
  | part :: rest => part ++ sep ++ join sep rest

/-- `s.replace(pat, "")` for a one-character string pattern `pat`: only the
first occurrence is removed. -/
def replaceFirst (pat : Char) : Str → Str
  | [] => []
  | c :: cs => if c = pat then cs else c :: replaceFirst pat cs

/-- The code points for which `String.prototype.trim` and `Number` strip
(ECMAScript WhiteSpace and LineTerminator). -/
def isWhiteSpace (c : Char) : Bool :=
  let n := c.toNat
  n = 0x09 || n = 0x0A || n = 0x0B || n = 0x0C || n = 0x0D || n = 0x20 ||
  n = 0xA0 || n = 0x1680 || (0x2000 ≤ n && n ≤ 0x200A) || n = 0x2028 ||
  n = 0x2029 || n = 0x202F || n = 0x205F || n = 0x3000 || n = 0xFEFF

/-- `s.trim()`. -/
def trim (s : Str) : Str :=
  ((s.dropWhile isWhiteSpace).reverse.dropWhile isWhiteSpace).reverse

/-! ## Numbers and their text -/

/-- The character of a decimal digit. -/
def digitChar (d : Nat) : Char := Char.ofNat (48 + d)

/-- The decimal digits of `n`, least significant first (none for zero);
`fuel` bounds the number of digits. -/
def digitsRev : Nat → Nat → List Nat
  | 0, _ => []
  | fuel + 1, n => if n = 0 then [] else (n % 10) :: digitsRev fuel (n / 10)

/-- The decimal text of a natural number. -/
def natToString (n : Nat) : Str :=
  if n = 0 then ['0'] else ((digitsRev n n).reverse).map digitChar

/-- `String(x)` for a number, as a template literal computes it: decimal
digits with a leading minus sign for a negative integer, `NaN` for `NaN`.
(JavaScript prints integers in this form up to 10^21, far above every id and
timestamp.) -/
def numToString : JSNum → Str
  | .int n => if n < 0 then '-' :: natToString n.natAbs else natToString n.natAbs
  | .nan => ['N', 'a', 'N']

/-- Whether the character is a decimal digit. -/
def isDigit (c : Char) : Bool := 48 ≤ c.toNat && c.toNat ≤ 57

/-- The value of a string of decimal digits. -/
def parseDigits (ds : Str) : Nat :=
  ds.foldl (fun acc c => 10 * acc + (c.toNat - 48)) 0

/-- The value of a non-empty string of decimal digits, `NaN` otherwise. -/
def parseUnsigned (ds : Str) : Option Nat :=
  if ds ≠ [] ∧ ds.all isDigit then some (parseDigits ds) else none

/-- `Number(s)` on the integer fragment of the numeric-literal grammar:
surrounding white space is ignored, the empty string is `0`, an optionally
signed string of decimal digits is its value, and anything else is `NaN`.
This is exact on the text that the two programs print for ids, reply ids and
timestamps.  Fractions, exponents, radix prefixes and `Infinity` denote values
that `JSNum` does not hold; no theorem below relies on the value given to such
text, and `parseMessageWith` takes the built-in as a parameter where arbitrary
client text is read. -/
def Number (s : Str) : JSNum :=
  match trim s with
  | [] => .int 0
  | c :: ds =>
    if c = '-' then
      match parseUnsigned ds with
      | some n => .int (-(n : Int))
      | none => .nan
    else if c = '+' then
      match parseUnsigned ds with
      | some n => .int n
      | none => .nan
    else
      match parseUnsigned (c :: ds) with
      | some n => .int n
      | none => .nan

/-! ## Wire codec (server side: `src/index.js`) -/

/-- The record separator written by `stringifyMessagesFromSQL` and read by
`parseNewMessages` (U+E41F). -/
def recordSeparator : Char := Char.ofNat 0xE41F

/-- A message as both programs type it.  The name and colour are `undefined`
on the server when the author is not a registered user, and on the client when
a record has fewer than five fields. -/
structure Message where
  id : JSNum
  reply : Option JSNum
  timestamp : JSNum
  username : Option Str
  color : Option Str
  content : Str
  deriving DecidableEq, Repr

/-- A registered user (`users` array of `src/index.js`). -/
structure User where
  id : Int
  username : Str
  passwordHash : Str
  color : Str
  deriving DecidableEq, Repr

/-- A row of the `Messages` table as the query callback receives it. -/
structure Row where
  id : Int
  reply : Option JSNum
  timestamp : Int
  user : Int
  content : Str
  deriving DecidableEq, Repr

/-- `Number(x)` where `x` may be `undefined` (a missing array element);
`Number(undefined)` is `NaN`. -/
def numberOf : Option Str → JSNum
  | none => .nan
  | some s => Number s

/-- A value interpolated into a template literal; `undefined` prints as the
text `undefined`. -/
def strOf : Option Str → Str
  | none => "undefined".toList
  | some s => s

/-- The result of `parseMessage`; `ν` is the type of numbers. -/
structure ClientFrame (ν : Type) where
  reply : Option ν
  content : Str
  deriving DecidableEq, Repr

/-- `parseMessage(data)` of `src/index.js`, with the built-in `Number` as the
parameter `toNumber`: the first record separator is removed, the text is split
on `;`, the first piece is the reply id and the remaining pieces, joined by `;`
again, are the content. -/
def parseMessageWith {ν : Type} (toNumber : Option Str → ν) (data : Str) : ClientFrame ν :=
  let pieces := split ';' (replaceFirst recordSeparator data)
  let reply := pieces.head?
  { reply := if reply ≠ some [] then some (toNumber reply) else none
    content := join [';'] pieces.tail }

/-- `parseMessage(data)` of `src/index.js`, the reply id being read by
`Number` as modelled above. -/
def parseMessage (data : Str) : ClientFrame JSNum :=
  parseMessageWith numberOf data

/-- The interpolation `reply ?? ""`: the empty string for `null`. -/
def replyText : Option JSNum → Str
  | none => []
  | some r => numToString r

/-- The template literal of `stringifyMessagesFromSQL` (line 222):
`id;reply-or-empty;timestamp;username;color;content`. -/
def encodeMessage (m : Message) : Str :=
  numToString m.id ++ [';'] ++
  replyText m.reply ++ [';'] ++
  numToString m.timestamp ++ [';'] ++
  strOf m.username ++ [';'] ++
  strOf m.color ++ [';'] ++
  m.content

/-- The fields that `stringifyMessagesFromSQL` interpolates for one row: the
row's own columns, and the name and colour of the user whose id is the row's
`user` column (`undefined` when there is no such user). -/
def rowMessage (users : List User) (row : Row) : Message :=
  let user := users.find? (fun user => user.id = row.user)
  { id := .int row.id
    reply := row.reply
    timestamp := .int row.timestamp
    username := user.map (fun u => u.username)
    color := user.map (fun u => u.color)
    content := row.content }

/-- The records of a frame joined by the record separator
(`messages.join(...)`, line 225). -/
def encodeFrame (messages : List Message) : Str :=
  join [recordSeparator] (messages.map encodeMessage)

/-- The frame that `stringifyMessagesFromSQL` resolves to for the rows that
the query returned: one record per row, joined by the record separator. -/
def stringifyMessagesFromSQL (users : List User) (results : List Row) : Str :=
  encodeFrame (results.map (rowMessage users))

/-- Whether a number is an integer (not `NaN`). -/
def isInt : JSNum → Bool
  | .int _ => true
  | .nan => false

/-- Whether a name or colour is a string without `;`. -/
def fieldOk : Option Str → Bool
  | some s => !s.contains ';'
  | none => false

/-- A message record in the sense of the wire format: integer id, reply that
is `null` or an integer, integer timestamp, and a name and a colour that are
strings without `;`. -/
def Message.isRecord (m : Message) : Bool :=
  isInt m.id && m.reply.all isInt && isInt m.timestamp && fieldOk m.username && fieldOk m.color

/-- Whether no text field of the message contains the record separator. -/
def Message.separatorFree (m : Message) : Bool :=
  !(strOf m.username).contains recordSeparator && !(strOf m.color).contains recordSeparator &&
  !m.content.contains recordSeparator

/-! ## Authentication gate (`src/index.js`) -/

/-- The object that `parseCookies` fills: the property assignments made so
far, latest first.  A property may hold `undefined`. -/
abbrev Cookies := List (Str × Option Str)

/-- Reading a property: the latest assignment to the key, `undefined` when
there is none. -/
def getProp (obj : Cookies) (key : Str) : Option Str :=
  match obj.find? (fun entry => entry.1 = key) with
  | none => none
  | some entry => entry.2

/-- `parseCookies(cookies)`: no header gives the empty object; otherwise the
header is split on `;`, each piece is split on `=`, and the second part (or
`undefined`) is stored under the trimmed first part; later pieces overwrite
earlier ones. -/
def parseCookies (cookies : Option Str) : Cookies :=
  match cookies with
  | none => []
  | some header =>
    (split ';' header).foldl
      (fun parsedCookies cookie =>
        let parts := split '=' cookie
        (trim (parts.headD []), parts.tail.head?) :: parsedCookies)
      []

/-- `getUserFromCookies(cookies)`.  The two library calls, `fixEncoding`
(re-decoding of the header bytes as UTF-8) and `hash` (SHA-256 in base 64),
are parameters. -/
def getUserFromCookies (fixEncoding hash : Str → Str) (users : List User)
    (cookies : Option Str) : Option User :=
  let parsed := parseCookies cookies
  match getProp parsed "username".toList, getProp parsed "password".toList with
  | some username, some password =>
    let fixedUsername := fixEncoding username
    let fixedPassword := fixEncoding password
    let passwordHash := hash fixedPassword
    users.find? (fun user => user.username = fixedUsername ∧ user.passwordHash = passwordHash)
  | _, _ => none

/-! ## Wire codec (client side: `src/static/script.js`) -/

/-- `parseNewMessage(data)`: the first five pieces of the split on `;` are
the leading fields (a missing piece is `undefined`), the remaining pieces
joined by `;` are the content. -/
def parseNewMessage (data : Str) : Message :=
  let pieces := split ';' data
  let id := pieces.head?
  let reply := (pieces.drop 1).head?
  let timestamp := (pieces.drop 2).head?
  let username := (pieces.drop 3).head?
  let color := (pieces.drop 4).head?
  let content := pieces.drop 5
  { id := numberOf id
    reply := if reply ≠ some [] then some (numberOf reply) else none
    timestamp := numberOf timestamp
    username := username
    color := color
    content := join [';'] content }

/-- `parseNewMessages(data)`: the empty frame holds no record; any other
frame is split on the record separator and each piece is decoded. -/
def parseNewMessages (data : Str) : List Message :=
  if data = [] then []
  else (split recordSeparator data).map parseNewMessage

/-! ## Regular expressions (the fragment used by `urlPattern`) -/

/-- Regular expressions without captures or back-references. -/
inductive Re where
  | chr (p : Char → Bool)
  | seq (a b : Re)
  | alt (a b : Re)
  | opt (a : Re)
  | star (a : Re)
  | wordB

/-- The characters matched by `\w`. -/
def isWordChar (c : Char) : Bool :=
  let n := c.toNat
  (48 ≤ n && n ≤ 57) || (65 ≤ n && n ≤ 90) || (97 ≤ n && n ≤ 122) || n = 95

/-- Whether the character at position `i` of `s` is a word character; there
is none outside the string. -/
def wordAt (s : Str) (i : Nat) : Bool :=
  match s.get? i with
  | some c => isWordChar c
  | none => false

/-- Whether `\b` holds at position `i`: exactly one of the characters before
and after the position is a word character. -/
def atWordBoundary (s : Str) (i : Nat) : Bool :=
  (if i = 0 then false else wordAt s (i - 1)) != wordAt s i

/-- Greedy repetition of a matcher `step`: one more iteration is tried
before the continuation, and an iteration that consumes nothing is rejected.
`fuel` bounds the number of iterations. -/
def starLoop (step : Nat → (Nat → Option Nat) → Option Nat) :
    Nat → Nat → (Nat → Option Nat) → Option Nat
  | 0, i, k => k i
  | fuel + 1, i, k =>
    match step i (fun j => if i < j then starLoop step fuel j k else none) with
    | some e => some e
    | none => k i

/-- Backtracking matcher: `matchRe s re i k` matches `re` in `s` from
position `i` and passes the end position to the continuation `k`; the result
is the end of the first successful match in priority order. -/
def matchRe (s : Str) : Re → Nat → (Nat → Option Nat) → Option Nat
  | .chr p, i, k =>
    match s.get? i with
    | some c => if p c then k (i + 1) else none
    | none => none
  | .seq a b, i, k => matchRe s a i (fun j => matchRe s b j k)
  | .alt a b, i, k =>
    match matchRe s a i k with
    | some e => some e
    | none => matchRe s b i k
  | .opt a, i, k =>
    match matchRe s a i (fun j => if i < j then k j else none) with
    | some e => some e
    | none => k i
  | .star a, i, k => starLoop (fun j k2 => matchRe s a j k2) (s.length - i) i k
  | .wordB, i, k => if atWordBoundary s i then k i else none

/-- The first position from `i` on at which `re` matches, with the end of
that match; `fuel` bounds the number of positions tried. -/
def searchFrom (s : Str) (re : Re) : Nat → Nat → Option (Nat × Nat)
  | 0, _ => none
  | fuel + 1, i =>
    match matchRe s re i some with
    | some e => some (i, e)
    | none => searchFrom s re fuel (i + 1)

/-- The search of `RegExp.prototype.exec` for a global expression whose
`lastIndex` is `lastIndex`: positions from `lastIndex` up to the length of the
string are tried. -/
def regexExec (re : Re) (lastIndex : Nat) (s : Str) : Option (Nat × Nat) :=
  if s.length < lastIndex then none
  else searchFrom s re (s.length - lastIndex + 1) lastIndex

/-- `re.test(s)` for a global expression: the answer and the new `lastIndex`
(the end of the match, or `0` when there is none). -/
def regexTest (re : Re) (lastIndex : Nat) (s : Str) : Bool × Nat :=
  match regexExec re lastIndex s with
  | some (_, e) => (true, e)
  | none => (false, 0)

/-- The matches that `s.replace(re, f)` collects for a global expression,
starting from `lastIndex`; after an empty match the search resumes one
position further. -/
def collectMatches (re : Re) (s : Str) : Nat → Nat → List (Nat × Nat)
  | 0, _ => []
  | fuel + 1, lastIndex =>
    match regexExec re lastIndex s with
    | none => []
    | some (i, e) => (i, e) :: collectMatches re s fuel (if e = i then e + 1 else e)

/-- The result text of `s.replace(re, f)`: the text between the matches is
kept and each match is replaced by `f` of the matched text. -/
def rebuild (s : Str) (f : Str → Str) : List (Nat × Nat) → Nat → Str
  | [], next => s.drop next
  | (i, e) :: rest, next =>
    if next ≤ i then
      (s.drop next).take (i - next) ++ f ((s.drop i).take (e - i)) ++ rebuild s f rest e
    else rebuild s f rest next

/-- `s.replace(re, f)` for a global expression: `lastIndex` is reset to `0`
before the search and is `0` again afterwards. -/
def regexReplace (re : Re) (f : Str → Str) (s : Str) : Str :=
  rebuild s f (collectMatches re s (s.length + 2) 0) 0

/-- A literal string as a regular expression (the pattern is not empty). -/
def Re.lit : Str → Re
  | [] => .opt (.chr (fun _ => false))
  | [c] => .chr (fun x => x = c)
  | c :: cs => .seq (.chr (fun x => x = c)) (Re.lit cs)

/-- One or more repetitions, greedy. -/
def Re.plus (a : Re) : Re := .seq a (.star a)

/-- The character class `[\w#!:.?+=&%!\-\/]` of `urlPattern`. -/
def isUrlTailChar (c : Char) : Bool :=
  isWordChar c || "#!:.?+=&%-/".toList.contains c

/-- The expression `urlPattern` of `src/static/script.js` (line 26):
`\b((?:https?):\/\/|data:)(\w+:?\w*)?(\S+)(:\d+)?(\/|\/([\w#!:.?+=&%!\-\/]))?\b`. -/
def urlPattern : Re :=
  .seq .wordB
  (.seq (.alt (.seq (Re.lit "http".toList) (.seq (.opt (.chr (fun c => c = 's'))) (Re.lit "://".toList)))
              (Re.lit "data:".toList))
  (.seq (.opt (.seq (Re.plus (.chr isWordChar))
              (.seq (.opt (.chr (fun c => c = ':'))) (.star (.chr isWordChar)))))
  (.seq (Re.plus (.chr (fun c => !isWhiteSpace c)))
  (.seq (.opt (.seq (.chr (fun c => c = ':')) (Re.plus (.chr isDigit))))
  (.seq (.opt (.alt (Re.lit "/".toList) (.seq (Re.lit "/".toList) (.chr isUrlTailChar))))
  .wordB)))))

/-! ## Rendering (`src/static/script.js`) -/

/-- `s.replace(/c/g, r)` for one character `c`. -/
def replaceChar (c : Char) (r : Str) (s : Str) : Str :=
  s.flatMap (fun x => if x = c then r else [x])

/-- `escapeHTML(html)`: the six replacements in the order of the source. -/
def escapeHTML (html : Str) : Str :=
  replaceChar '\n' "<br>".toList
    (replaceChar (Char.ofNat 39) "&#039;".toList
      (replaceChar '"' "&quot;".toList
        (replaceChar '>' "&gt;".toList
          (replaceChar '<' "&lt;".toList
            (replaceChar '&' "&amp;".toList html)))))

/-- `url.replace(/&amp;/g, "&")`. -/
def unescapeAmp : Str → Str
  | '&' :: 'a' :: 'm' :: 'p' :: ';' :: rest => '&' :: unescapeAmp rest
  | c :: rest => c :: unescapeAmp rest
  | [] => []

/-- `s.padStart(2, "0")`. -/
def padStart2 (s : Str) : Str :=
  List.replicate (2 - s.length) '0' ++ s

/-- Day of the month and month (1 to 12) of the day that lies `days` days
after 1 January 1970, in the proleptic Gregorian calendar. -/
def civilFromDays (days : Int) : Int × Int :=
  let z := days + 719468
  let doe := z % 146097
  let yoe := (doe - doe / 1460 + doe / 36524 - doe / 146096) / 365
  let doy := doe - (365 * yoe + yoe / 4 - yoe / 100)
  let mp := (5 * doy + 2) / 153
  let d := doy - (153 * mp + 2) / 5 + 1
  let m := if mp < 10 then mp + 3 else mp - 9
  (d, m)

/-- `formatDate(timestamp)`: day/month hours:minutes of the local time, each
on two digits.  `tz` gives the offset of local time from UTC, in
milliseconds, at a given instant (the browser's time zone).  A timestamp that
is `NaN` or outside the range of `Date` is an invalid date, whose fields all
print as `NaN`. -/
def formatDate (tz : Int → Int) (timestamp : JSNum) : Str :=
  match timestamp with
  | .nan => "NaN/NaN NaN:NaN".toList
  | .int t =>
    if t < -8640000000000000 ∨ 8640000000000000 < t then "NaN/NaN NaN:NaN".toList
    else
      let tLocal := t + tz t
      let days := tLocal / 86400000
      let msOfDay := tLocal % 86400000
      let dm := civilFromDays days
      padStart2 (numToString (.int dm.1)) ++ ['/'] ++
      padStart2 (numToString (.int dm.2)) ++ [' '] ++
      padStart2 (numToString (.int (msOfDay / 3600000))) ++ [':'] ++
      padStart2 (numToString (.int (msOfDay % 3600000 / 60000)))

/-- The loose equality `message.id == messageId` between a number and a
number or `null`: `NaN` and `null` equal nothing. -/
def looseEq (a : JSNum) (b : Option JSNum) : Bool :=
  match a, b with
  | .int x, some (.int y) => x = y
  | _, _ => false

/-- `getMessageById(messageId)` over the cache `messages`: the first cached
message whose id loosely equals `messageId`, or `null`. -/
def getMessageById (messages : List Message) (messageId : Option JSNum) : Option Message :=
  messages.find? (fun message => looseEq message.id messageId)

/-- `embedError(message)`. -/
def embedError (message : Str) : Str :=
  "<span class=\"error\">".toList ++ message ++ "</span>".toList

/-- The expression bound to `content` in `embedMessageContent`, with the
`lastIndex` of the global `urlPattern` before and after: an image element when
the content starts with `img:` and `urlPattern.test` accepts the rest,
otherwise the escaped content with its URLs turned into links. -/
def renderContent (lastIndex : Nat) (content : Str) : Str × Nat :=
  if "img:".toList.isPrefixOf content then
    match regexTest urlPattern lastIndex (content.drop 4) with
    | (true, lastIndex2) =>
      ("<img src=\"".toList ++ content.drop 4 ++ "\">".toList, lastIndex2)
    | (false, _) =>
      (regexReplace urlPattern
        (fun url => "<a href=\"".toList ++ unescapeAmp url ++ "\">".toList ++ url ++ "</a>".toList)
        (escapeHTML content), 0)
  else
    (regexReplace urlPattern
      (fun url => "<a href=\"".toList ++ unescapeAmp url ++ "\">".toList ++ url ++ "</a>".toList)
      (escapeHTML content), 0)

/-- `embedMessageContent(message)`, with the `lastIndex` of `urlPattern`
before and after the call. -/
def embedMessageContent (tz : Int → Int) (lastIndex : Nat) (message : Message) : Str × Nat :=
  let content := renderContent lastIndex message.content
  ("\n    <span class=\"message-date\">".toList ++ formatDate tz message.timestamp ++
   "</span>\n    <span class=\"message-sender\" style=\"color: ".toList ++ strOf message.color ++
   "\">".toList ++ strOf message.username ++
   "</span>\n    :\n    <span class=\"message-content\">".toList ++ content.1 ++
   "</span>\n    ".toList, content.2)

/-- `embedMessage(message)` over the cache `messages`, with the `lastIndex`
of `urlPattern` before and after the call.  The replied-to message is looked
up first; when the lookup gives `null` the reply block is the empty string. -/
def embedMessage (tz : Int → Int) (lastIndex : Nat) (messages : List Message)
    (message : Message) : Str × Nat :=
  let reply := getMessageById messages message.reply
  let replyBlock : Str × Nat :=
    match reply with
    | none => ([], lastIndex)
    | some r =>
      let inner := embedMessageContent tz lastIndex r
      ("\n        <span class=\"message-reply\">\n            ┌\n            ".toList ++ inner.1 ++
       "\n        </span>\n        <br>\n        ".toList, inner.2)
  let own := embedMessageContent tz replyBlock.2 message
  ("\n    <div class=\"message\" id=\"".toList ++ numToString message.id ++
   "\" onclick=\"setReply(".toList ++ numToString message.id ++ ")\">\n        ".toList ++
   replyBlock.1 ++ "\n        ".toList ++ own.1 ++ "\n    </div>\n    ".toList, own.2)

/-! ## Client session (`src/static/script.js`) -/

/-- The client state that the message handler reads and writes: the cache
`messages`, the fragments appended to the message view since it was last
cleared, and the `lastIndex` of `urlPattern`. -/
structure ClientState where
  messages : List Message
  view : List Str
  lastIndex : Nat

/-- `appendMessage(message)`: the message is pushed on the cache and then its
rendering is appended to the view. -/
def appendMessage (tz : Int → Int) (st : ClientState) (message : Message) : ClientState :=
  let messages := st.messages ++ [message]
  let html := embedMessage tz st.lastIndex messages message
  { messages := messages, view := st.view ++ [html.1], lastIndex := html.2 }

/-- `onWebSocketMessage(event)` for a frame `data` (the border animation is
left out): the frame is decoded, the cache and the view are cleared when it
holds more than one record, and every record is appended. -/
def onWebSocketMessage (tz : Int → Int) (st : ClientState) (data : Str) : ClientState :=
  let newMessages := parseNewMessages data
  let st1 : ClientState :=
    if 1 < newMessages.length then { st with messages := [], view := [] } else st
  newMessages.foldl (appendMessage tz) st1

/-! ## Server message handler (`src/index.js`, lines 60 to 80) -/

/-- A query issued on the single database connection and not yet answered. -/
inductive Query where
  | insert (reply : Option JSNum) (timestamp : Int) (user : Int) (content : Str)
  | selectLastInsert
  deriving DecidableEq, Repr

/-- The server state seen by the message handler: the rows of the `Messages`
table, the next id the table assigns, the value of `LAST_INSERT_ID()` on the
connection, the queries issued and not yet answered (oldest first), the open
WebSocket clients, and every frame sent so far with its recipient. -/
structure ServerState where
  rows : List Row
  nextId : Int
  lastInsertId : Int
  queue : List Query
  clients : List Nat
  sent : List (Nat × Str)
  deriving DecidableEq, Repr

/-- What happens on the server's event loop. -/
inductive Event where
  | frame (user : User) (now : Int) (data : Str)
  | queryDone (err : Bool)
  deriving DecidableEq, Repr

/-- Modelled from the spec: the `Messages` table, whose schema is not part of
the sources, "assigns the next id" to an appended row, ids being "strictly
increasing, never reused"; `LAST_INSERT_ID()` then is that id. -/
def insertRow (st : ServerState) (reply : Option JSNum) (timestamp user : Int)
    (content : Str) : ServerState :=
  { st with rows := st.rows ++ [⟨st.nextId, reply, timestamp, user, content⟩]
            nextId := st.nextId + 1
            lastInsertId := st.nextId }

/-- One step of the server.

* `frame user now data`: the `message` handler of a connection authenticated
  as `user` runs at time `now`.  A frame whose content is empty returns at
  once; otherwise the `INSERT` is issued on the database connection.
* `queryDone err`: the database answers the oldest pending query (the
  connection runs its queries one at a time, in the order issued), with or
  without an error, and the callback of that query runs.  After an `INSERT` without error the callback
  issues `SELECT * FROM Messages WHERE id=LAST_INSERT_ID()`; after that
  `SELECT` the rows it returned are encoded and sent to every open client.
  With an error nothing more happens. -/
def step (users : List User) (st : ServerState) : Event → ServerState
  | .frame user now data =>
    let parsed := parseMessage data
    if parsed.content = [] then st
    else { st with queue := st.queue ++ [Query.insert parsed.reply now user.id parsed.content] }
  | .queryDone err =>
    match st.queue with
    | [] => st
    | .insert reply timestamp user content :: rest =>
      if err then { st with queue := rest }
      else
        { insertRow st reply timestamp user content with
          queue := rest ++ [Query.selectLastInsert] }
    | .selectLastInsert :: rest =>
      if err then { st with queue := rest }
      else
        let results := st.rows.filter (fun row => row.id = st.lastInsertId)
        let messageData := stringifyMessagesFromSQL users results
        { st with queue := rest
                  sent := st.sent ++ st.clients.map (fun client => (client, messageData)) }

/-- The server state after a sequence of events. -/
def run (users : List User) (st : ServerState) (events : List Event) : ServerState :=
  events.foldl (step users) st

set_option maxRecDepth 1000000

/-! ## Lemmas on splitting and joining -/

theorem split_ne_nil (sep : Char) (s : Str) : split sep s ≠ [] := by
  induction s with
  | nil => simp [split]
  | cons c cs ih =>
    unfold split
    split_ifs
    · simp
    · cases h : split sep cs <;> simp

theorem split_of_not_mem (sep : Char) (s : Str) (h : sep ∉ s) : split sep s = [s] := by
  induction s with
  | nil => simp [split]
  | cons c cs ih =>
    have hc : c ≠ sep := fun e => h (by simp [e])
    have hcs : sep ∉ cs := fun e => h (by simp [e])
    unfold split
    rw [if_neg hc, ih hcs]

theorem split_append_sep (sep : Char) (a b : Str) (h : sep ∉ a) :
    split sep (a ++ sep :: b) = a :: split sep b := by
  induction a with
  | nil => simp [split]
  | cons c cs ih =>
    have hc : c ≠ sep := fun e => h (by simp [e])
    have hcs : sep ∉ cs := fun e => h (by simp [e])
    show split sep (c :: (cs ++ sep :: b)) = _
    rw [split, if_neg hc, ih hcs]

theorem join_split (sep : Char) (s : Str) : join [sep] (split sep s) = s := by
  induction s with
  | nil => simp [split, join]
  | cons c cs ih =>
    unfold split
    split_ifs with hc
    · subst hc
      cases h : split c cs with
      | nil => exact absurd h (split_ne_nil _ _)
      | cons p ps => rw [h] at ih; simp [join, ih]
    · cases h : split sep cs with
      | nil => exact absurd h (split_ne_nil _ _)
      | cons p ps =>
        rw [h] at ih
        cases ps with
        | nil => simpa [join] using ih
        | cons q qs => simp only [join] at ih ⊢; simp [← ih]

theorem split_join (sep : Char) (parts : List Str) (hne : parts ≠ [])
    (h : ∀ part ∈ parts, sep ∉ part) : split sep (join [sep] parts) = parts := by
  induction parts with
  | nil => exact absurd rfl hne
  | cons p ps ih =>
    cases ps with
    | nil => simpa [join] using split_of_not_mem sep p (h p (by simp))
    | cons q qs =>
      have hp : sep ∉ p := h p (by simp)
      have ih2 := ih (by simp) (fun part hpart => h part (by simp [hpart]))
      show split sep (p ++ [sep] ++ join [sep] (q :: qs)) = _
      rw [List.append_assoc, List.singleton_append, split_append_sep sep _ _ hp, ih2]

theorem replaceFirst_of_not_mem (pat : Char) (s : Str) (h : pat ∉ s) :
    replaceFirst pat s = s := by
  induction s with
  | nil => rfl
  | cons c cs ih =>
    have hc : c ≠ pat := fun e => h (by simp [e])
    have hcs : pat ∉ cs := fun e => h (by simp [e])
    simp [replaceFirst, hc, ih hcs]

/-! ## Lemmas on numbers and their text -/

theorem digitChar_facts (d : Nat) (h : d < 10) :
    (digitChar d).toNat - 48 = d ∧ isDigit (digitChar d) = true ∧
    isWhiteSpace (digitChar d) = false ∧ digitChar d ≠ ';' ∧
    digitChar d ≠ recordSeparator ∧ digitChar d ≠ '-' ∧ digitChar d ≠ '+' := by
  interval_cases d <;> decide

theorem digitsRev_lt (fuel n : Nat) : ∀ d ∈ digitsRev fuel n, d < 10 := by
  induction fuel generalizing n with
  | zero => simp [digitsRev]
  | succ f ih =>
    intro d hd
    unfold digitsRev at hd
    split_ifs at hd with h0
    · simp at hd
    · rcases List.mem_cons.mp hd with rfl | hd
      · exact Nat.mod_lt _ (by decide)
      · exact ih _ d hd

theorem digitsRev_value (fuel n : Nat) (h : n ≤ fuel) :
    (digitsRev fuel n).foldr (fun d acc => 10 * acc + d) 0 = n := by
  induction fuel generalizing n with
  | zero =>
    have : n = 0 := by omega
    simp [digitsRev, this]
  | succ f ih =>
    unfold digitsRev
    split_ifs with h0
    · simp [h0]
    · have hq : n / 10 ≤ f := by omega
      simp only [List.foldr_cons, ih _ hq]
      omega

theorem digitsRev_ne_nil (n : Nat) (h : n ≠ 0) : digitsRev n n ≠ [] := by
  cases n with
  | zero => exact absurd rfl h
  | succ m => simp [digitsRev]

theorem parseDigits_map_digitChar (ds : List Nat) (h : ∀ d ∈ ds, d < 10) :
    parseDigits (ds.reverse.map digitChar) = ds.foldr (fun d acc => 10 * acc + d) 0 := by
  induction ds with
  | nil => rfl
  | cons d ds ih =>
    have hd := (digitChar_facts d (h d (by simp))).1
    have ih2 := ih (fun x hx => h x (by simp [hx]))
    unfold parseDigits at ih2 ⊢
    simp only [List.reverse_cons, List.map_append, List.map_cons, List.map_nil,
      List.foldl_append, List.foldl_cons, List.foldl_nil, List.foldr_cons, ih2, hd]

/-- The characters of the decimal text of a natural number are digits. -/
theorem natToString_digits (n : Nat) :
    natToString n ≠ [] ∧ ∀ c ∈ natToString n, ∃ d, d < 10 ∧ c = digitChar d := by
  unfold natToString
  split_ifs with h0
  · exact ⟨by simp, fun c hc => ⟨0, by decide, by simpa using hc⟩⟩
  · refine ⟨by simpa using digitsRev_ne_nil n h0, fun c hc => ?_⟩
    simp only [List.mem_map, List.mem_reverse] at hc
    obtain ⟨d, hd, rfl⟩ := hc
    exact ⟨d, digitsRev_lt _ _ d hd, rfl⟩

theorem parseUnsigned_natToString (n : Nat) : parseUnsigned (natToString n) = some n := by
  have hd := natToString_digits n
  have hall : (natToString n).all isDigit = true := by
    rw [List.all_eq_true]
    intro c hc
    obtain ⟨d, hlt, rfl⟩ := hd.2 c hc
    exact (digitChar_facts d hlt).2.1
  have hval : parseDigits (natToString n) = n := by
    unfold natToString
    split_ifs with h0
    · subst h0; rfl
    · rw [parseDigits_map_digitChar _ (digitsRev_lt n n), digitsRev_value n n le_rfl]
  simp [parseUnsigned, hd.1, hall, hval]

/-- Every character of the text of an integer is a digit or the minus sign. -/
theorem numToString_int_chars (i : Int) :
    numToString (.int i) ≠ [] ∧
    ∀ c ∈ numToString (.int i), c = '-' ∨ ∃ d, d < 10 ∧ c = digitChar d := by
  have hd := natToString_digits i.natAbs
  simp only [numToString]
  split_ifs with hneg
  · refine ⟨by simp, fun c hc => ?_⟩
    rcases List.mem_cons.mp hc with rfl | hc
    · exact Or.inl rfl
    · exact Or.inr (hd.2 c hc)
  · exact ⟨hd.1, fun c hc => Or.inr (hd.2 c hc)⟩

theorem numToString_int_not_mem (i : Int) :
    ';' ∉ numToString (.int i) ∧ recordSeparator ∉ numToString (.int i) ∧
    ∀ c ∈ numToString (.int i), isWhiteSpace c = false := by
  have h := (numToString_int_chars i).2
  refine ⟨fun hm => ?_, fun hm => ?_, fun c hc => ?_⟩
  · rcases h _ hm with e | ⟨d, hlt, e⟩
    · exact absurd e (by decide)
    · exact (digitChar_facts d hlt).2.2.2.1 e.symm
  · rcases h _ hm with e | ⟨d, hlt, e⟩
    · exact absurd e (by decide)
    · exact (digitChar_facts d hlt).2.2.2.2.1 e.symm
  · rcases h c hc with rfl | ⟨d, hlt, rfl⟩
    · decide
    · exact (digitChar_facts d hlt).2.2.1

theorem trim_of_no_whiteSpace (s : Str) (h : ∀ c ∈ s, isWhiteSpace c = false) : trim s = s := by
  have key : ∀ t : Str, (∀ c ∈ t, isWhiteSpace c = false) → t.dropWhile isWhiteSpace = t := by
    intro t ht
    cases t with
    | nil => rfl
    | cons c cs => simp [List.dropWhile, ht c (by simp)]
  unfold trim
  rw [key s h, key s.reverse (fun c hc => h c (List.mem_reverse.mp hc)), List.reverse_reverse]

/-- `Number` reads back the text that a template literal prints for an integer. -/
theorem Number_numToString (i : Int) : Number (numToString (.int i)) = .int i := by
  have htrim := trim_of_no_whiteSpace _ (numToString_int_not_mem i).2.2
  unfold Number
  rw [htrim]
  simp only [numToString]
  split_ifs with hneg
  · simp only [if_true, parseUnsigned_natToString]
    congr 1
    omega
  · have hd := natToString_digits i.natAbs
    cases hs : natToString i.natAbs with
    | nil => exact absurd hs hd.1
    | cons c ds =>
      obtain ⟨d, hlt, hc⟩ := hd.2 c (by simp [hs])
      have h1 : c ≠ '-' := hc ▸ (digitChar_facts d hlt).2.2.2.2.2.1
      have h2 : c ≠ '+' := hc ▸ (digitChar_facts d hlt).2.2.2.2.2.2
      simp only [if_neg h1, if_neg h2, ← hs, parseUnsigned_natToString]
      congr 1
      omega

/-! ## Lemmas on the record codec -/

theorem replyText_facts (r : Option Int) :
    ';' ∉ replyText (r.map JSNum.int) ∧ recordSeparator ∉ replyText (r.map JSNum.int) ∧
    (replyText (r.map JSNum.int) = [] ↔ r = none) := by
  cases r with
  | none => simp [replyText]
  | some j =>
    simpa [replyText] using
      ⟨(numToString_int_not_mem j).1, (numToString_int_not_mem j).2.1, (numToString_int_chars j).1⟩

/-- Decoding the record built from integer fields and `;`-free name and
colour gives the fields back. -/
theorem parseNewMessage_encodeMessage_fields (i : Int) (r : Option Int) (t : Int)
    (u c content : Str) (hu : ';' ∉ u) (hc : ';' ∉ c) :
    parseNewMessage (encodeMessage ⟨.int i, r.map .int, .int t, some u, some c, content⟩) =
      ⟨.int i, r.map .int, .int t, some u, some c, content⟩ := by
  have hi := (numToString_int_not_mem i).1
  have ht := (numToString_int_not_mem t).1
  have hr := replyText_facts r
  have hsplit : split ';' (encodeMessage ⟨.int i, r.map .int, .int t, some u, some c, content⟩) =
      numToString (.int i) :: replyText (r.map JSNum.int) :: numToString (.int t) :: u :: c ::
        split ';' content := by
    simp only [encodeMessage, strOf, List.append_assoc, List.singleton_append, List.cons_append,
      List.nil_append]
    rw [split_append_sep _ _ _ hi, split_append_sep _ _ _ hr.1, split_append_sep _ _ _ ht,
      split_append_sep _ _ _ hu, split_append_sep _ _ _ hc]
  unfold parseNewMessage
  rw [hsplit]
  cases r with
  | none => simp [numberOf, Number_numToString, join_split, replyText]
  | some j =>
    have hne : numToString (.int j) ≠ [] := (numToString_int_chars j).1
    simp [numberOf, Number_numToString, join_split, hne, replyText]

theorem isRecord_iff (m : Message) :
    m.isRecord = true ↔ ∃ (i : Int) (r : Option Int) (t : Int) (u c : Str),
      ';' ∉ u ∧ ';' ∉ c ∧ m = ⟨.int i, r.map .int, .int t, some u, some c, m.content⟩ := by
  obtain ⟨id, reply, ts, un, co, content⟩ := m
  constructor
  · intro h
    simp only [Message.isRecord, Bool.and_eq_true] at h
    obtain ⟨⟨⟨⟨h1, h2⟩, h3⟩, h4⟩, h5⟩ := h
    cases id with
    | nan => simp [isInt] at h1
    | int i =>
    cases ts with
    | nan => simp [isInt] at h3
    | int t =>
    cases un with
    | none => simp [fieldOk] at h4
    | some u =>
    cases co with
    | none => simp [fieldOk] at h5
    | some c =>
    have hu : ';' ∉ u := by simpa [fieldOk] using h4
    have hc : ';' ∉ c := by simpa [fieldOk] using h5
    cases reply with
    | none => exact ⟨i, none, t, u, c, hu, hc, rfl⟩
    | some x =>
      cases x with
      | nan => simp [isInt] at h2
      | int j => exact ⟨i, some j, t, u, c, hu, hc, rfl⟩
  · rintro ⟨i, r, t, u, c, hu, hc, h⟩
    rw [h]
    cases r <;> simp [Message.isRecord, isInt, fieldOk, hu, hc]

theorem parseNewMessage_encodeMessage_of_isRecord (m : Message) (h : m.isRecord = true) :
    parseNewMessage (encodeMessage m) = m := by
  obtain ⟨i, r, t, u, c, hu, hc, hm⟩ := (isRecord_iff m).mp h
  rw [hm]
  exact parseNewMessage_encodeMessage_fields i r t u c m.content hu hc

theorem encodeMessage_ne_nil (m : Message) : encodeMessage m ≠ [] := by
  simp [encodeMessage]

theorem recordSeparator_not_mem_encodeMessage (m : Message) (h : m.isRecord = true)
    (hs : m.separatorFree = true) : recordSeparator ∉ encodeMessage m := by
  obtain ⟨i, r, t, u, c, _, _, hm⟩ := (isRecord_iff m).mp h
  have hsep : recordSeparator ≠ ';' := by decide
  have hi := (numToString_int_not_mem i).2.1
  have ht := (numToString_int_not_mem t).2.1
  have hr := (replyText_facts r).2.1
  rw [hm] at hs ⊢
  simp [Message.separatorFree, strOf] at hs
  simp only [encodeMessage, strOf, List.mem_append, List.mem_singleton, not_or]
  exact ⟨⟨⟨⟨⟨⟨⟨⟨⟨⟨hi, hsep⟩, hr⟩, hsep⟩, ht⟩, hsep⟩, hs.1.1⟩, hsep⟩, hs.1.2⟩, hsep⟩, hs.2⟩

/-- Decoding the frame built from records gives the records back. -/
theorem parseNewMessages_encodeFrame_of_records (ms : List Message)
    (h : ∀ m ∈ ms, m.isRecord = true ∧ m.separatorFree = true) :
    parseNewMessages (encodeFrame ms) = ms := by
  cases ms with
  | nil => rfl
  | cons m rest =>
    have hne : encodeFrame (m :: rest) ≠ [] := by
      have := encodeMessage_ne_nil m
      cases rest <;> simp [encodeFrame, join, this]
    have hparts : ∀ part ∈ (m :: rest).map encodeMessage, recordSeparator ∉ part := by
      intro part hp
      obtain ⟨x, hx, rfl⟩ := List.mem_map.mp hp
      exact recordSeparator_not_mem_encodeMessage x (h x hx).1 (h x hx).2
    unfold parseNewMessages
    rw [if_neg hne]
    unfold encodeFrame
    rw [split_join _ _ (by simp) hparts, List.map_map]
    conv_rhs => rw [← List.map_id (m :: rest)]
    apply List.map_congr_left
    intro x hx
    exact parseNewMessage_encodeMessage_of_isRecord x (h x hx).1

/-! ## Claims on the wire codec -/

/-- C1. Record round trip: for every integer id, reply id that is `null` or
an integer, integer timestamp, username and color without `;` and ANY content,
`parseNewMessage` applied to the record `id;reply-or-empty;timestamp;username;color;content`
built by the server returns exactly these six fields, the `;` characters of the
content included. -/
theorem record_round_trip (i : Int) (r : Option Int) (t : Int) (u c content : Str)
    (hu : ';' ∉ u) (hc : ';' ∉ c) :
    parseNewMessage (encodeMessage ⟨.int i, r.map .int, .int t, some u, some c, content⟩) =
      ⟨.int i, r.map .int, .int t, some u, some c, content⟩ :=
  parseNewMessage_encodeMessage_fields i r t u c content hu hc

/-- Witness of C1 at the record `12;;1700000000000;alice;#fff;a;b;c`. -/
theorem record_round_trip_witness :
    (';' ∉ "alice".toList ∧ ';' ∉ "#fff".toList) ∧
    encodeMessage ⟨.int 12, none, .int 1700000000000, some "alice".toList, some "#fff".toList,
      "a;b;c".toList⟩ = "12;;1700000000000;alice;#fff;a;b;c".toList ∧
    parseNewMessage (encodeMessage ⟨.int 12, (none : Option Int).map .int, .int 1700000000000,
      some "alice".toList, some "#fff".toList, "a;b;c".toList⟩) =
      ⟨.int 12, none, .int 1700000000000, some "alice".toList, some "#fff".toList,
        "a;b;c".toList⟩ :=
  ⟨by decide, by decide,
    record_round_trip 12 none 1700000000000 "alice".toList "#fff".toList "a;b;c".toList
      (by decide) (by decide)⟩

/-- C3. Client frame decoding: for every frame `r;c` in which `r` holds no
`;` and the frame holds no record separator, `parseMessage` returns the content
`c` exactly (later `;` preserved) and the reply `null` when `r` is empty and
`Number(r)` otherwise, whatever the built-in `Number` makes of `r`; when `r` is
the text of an integer `n`, as the client writes a reply id, the reply is
`n`. -/
theorem parseMessage_client_frame (r c : Str) (hr : ';' ∉ r)
    (hs : recordSeparator ∉ r ++ ';' :: c) :
    (∀ (ν : Type) (toNumber : Option Str → ν),
      parseMessageWith toNumber (r ++ ';' :: c) =
        { reply := if r = [] then none else some (toNumber (some r)), content := c }) ∧
    (parseMessage (r ++ ';' :: c)).content = c ∧
    (r = [] → (parseMessage (r ++ ';' :: c)).reply = none) ∧
    (∀ n : Int, r = numToString (.int n) →
      (parseMessage (r ++ ';' :: c)).reply = some (.int n)) := by
  have key : ∀ (ν : Type) (toNumber : Option Str → ν),
      parseMessageWith toNumber (r ++ ';' :: c) =
        { reply := if r = [] then none else some (toNumber (some r)), content := c } := by
    intro ν toNumber
    unfold parseMessageWith
    rw [replaceFirst_of_not_mem _ _ hs, split_append_sep _ _ _ hr]
    by_cases h : r = [] <;> simp [h, join_split]
  refine ⟨key, ?_, ?_, ?_⟩
  · simp only [parseMessage, key]
  · intro h
    simp only [parseMessage, key, if_pos h]
  · intro n hn
    have hne : r ≠ [] := hn ▸ (numToString_int_chars n).1
    simp only [parseMessage, key, if_neg hne, numberOf]
    rw [hn, Number_numToString]

/-- Witness of C3: the frame `5;hi there` decodes to reply 5 and content
`hi there`, the frame `;a;b` to no reply and content `a;b`, and the frame
`-12;x` to reply -12. -/
theorem parseMessage_client_frame_witness :
    parseMessage "5;hi there".toList = { reply := some (.int 5), content := "hi there".toList } ∧
    parseMessage ";a;b".toList = { reply := none, content := "a;b".toList } ∧
    (parseMessage "-12;x".toList).reply = some (.int (-12)) ∧
    parseMessageWith (fun piece => piece) "1e3;x".toList =
      { reply := some (some "1e3".toList), content := "x".toList } :=
  ⟨((parseMessage_client_frame "5".toList "hi there".toList (by decide) (by decide)).1
      JSNum numberOf).trans (by decide),
   ((parseMessage_client_frame [] "a;b".toList (by decide) (by decide)).1
      JSNum numberOf).trans (by decide),
   (parseMessage_client_frame "-12".toList "x".toList (by decide) (by decide)).2.2.2 (-12)
      (by decide),
   ((parseMessage_client_frame "1e3".toList "x".toList (by decide) (by decide)).1
      (Option Str) (fun piece => piece)).trans (by decide)⟩

/-- C7. Multi-record frame round trip: for every list of records (empty,
single or longer) whose text fields hold no record separator and whose name and
colour hold no `;`, `parseNewMessages` applied to the records' encodings joined
by the record separator returns the same records in the same order; the empty
list encodes to the empty frame, which decodes to the empty list. -/
theorem frame_round_trip (ms : List Message)
    (h : ∀ m ∈ ms, m.isRecord = true ∧ m.separatorFree = true) :
    parseNewMessages (encodeFrame ms) = ms ∧
    encodeFrame [] = [] ∧ parseNewMessages [] = [] :=
  ⟨parseNewMessages_encodeFrame_of_records ms h, rfl, rfl⟩

/-- Witness of C7 at a history of two records, the second replying to the
first and holding `;` in its content. -/
theorem frame_round_trip_witness :
    parseNewMessages (encodeFrame
      [⟨.int 1, none, .int 1000, some "alice".toList, some "#fff".toList, "hello".toList⟩,
       ⟨.int 2, some (.int 1), .int 2000, some "bob".toList, some "red".toList, "a;b".toList⟩]) =
      [⟨.int 1, none, .int 1000, some "alice".toList, some "#fff".toList, "hello".toList⟩,
       ⟨.int 2, some (.int 1), .int 2000, some "bob".toList, some "red".toList, "a;b".toList⟩] :=
  (frame_round_trip _ (by decide)).1

/-- C6 (the code departs from the claim). The frame `;` followed by two record
separators: `parseMessage` removes only the first separator, so the content it
returns, which the server stores, is one record separator; the history frame
of a table holding that single row then decodes to two records. -/
theorem parseMessage_keeps_second_separator :
    parseMessage [';', recordSeparator, recordSeparator] =
      { reply := none, content := [recordSeparator] } ∧
    recordSeparator ∈ (parseMessage [';', recordSeparator, recordSeparator]).content ∧
    (parseNewMessages (stringifyMessagesFromSQL [⟨1, "alice".toList, [], "#fff".toList⟩]
      [⟨1, none, 1000, 1,
        (parseMessage [';', recordSeparator, recordSeparator]).content⟩])).length = 2 := by
  decide

/-! ## Claims on the authentication gate -/

/-- C2. AuthGate resolution: `getUserFromCookies` returns the user `u` if and
only if the header yields a username value `U` and a password value `P` and `u`
is the first entry of the directory whose username equals `fixEncoding U` and
whose password hash equals `hash (fixEncoding P)`, both exactly; it returns
`undefined` when the header is absent, when either value is absent, and when no
entry matches.  The function is total: no step of it can throw. -/
theorem getUserFromCookies_resolution (fixEncoding hash : Str → Str) (users : List User)
    (cookies : Option Str) :
    (∀ u, getUserFromCookies fixEncoding hash users cookies = some u ↔
      ∃ U P, getProp (parseCookies cookies) "username".toList = some U ∧
        getProp (parseCookies cookies) "password".toList = some P ∧
        (u.username = fixEncoding U ∧ u.passwordHash = hash (fixEncoding P)) ∧
        ∃ before after, users = before ++ u :: after ∧
          ∀ x ∈ before, ¬(x.username = fixEncoding U ∧ x.passwordHash = hash (fixEncoding P))) ∧
    (cookies = none → getUserFromCookies fixEncoding hash users cookies = none) ∧
    (getProp (parseCookies cookies) "username".toList = none →
      getUserFromCookies fixEncoding hash users cookies = none) ∧
    (getProp (parseCookies cookies) "password".toList = none →
      getUserFromCookies fixEncoding hash users cookies = none) ∧
    (∀ U P, getProp (parseCookies cookies) "username".toList = some U →
      getProp (parseCookies cookies) "password".toList = some P →
      (∀ x ∈ users, ¬(x.username = fixEncoding U ∧ x.passwordHash = hash (fixEncoding P))) →
      getUserFromCookies fixEncoding hash users cookies = none) := by
  refine ⟨fun u => ?_, fun h => ?_, fun h => ?_, fun h => ?_, fun U P hU hP hno => ?_⟩
  · cases hU : getProp (parseCookies cookies) "username".toList with
    | none => simp only [getUserFromCookies, hU]; simp
    | some U =>
      cases hP : getProp (parseCookies cookies) "password".toList with
      | none => simp only [getUserFromCookies, hU, hP]; simp
      | some P =>
        simp only [getUserFromCookies, hU, hP]
        simp [List.find?_eq_some, imp_iff_not_or]
  · subst h
    rfl
  · simp only [getUserFromCookies, h]
  · cases hU : getProp (parseCookies cookies) "username".toList <;>
      simp only [getUserFromCookies, hU, h]
  · simp only [getUserFromCookies, hU, hP]
    rw [List.find?_eq_none]
    intro x hx
    simpa using hno x hx

/-- Witness of C2: with the directory `alice`, `bob`, the header
`username=bob; password=pw` resolves to `bob`; the header `username=bob` (no
password) and the absent header resolve to nothing. -/
theorem getUserFromCookies_resolution_witness :
    getUserFromCookies id (fun p => 'h' :: p)
      [⟨1, "alice".toList, "hpw".toList, "#fff".toList⟩,
       ⟨2, "bob".toList, "hpw".toList, "#000".toList⟩]
      (some "username=bob; password=pw".toList) =
      some ⟨2, "bob".toList, "hpw".toList, "#000".toList⟩ ∧
    getUserFromCookies id (fun p => 'h' :: p)
      [⟨1, "alice".toList, "hpw".toList, "#fff".toList⟩,
       ⟨2, "bob".toList, "hpw".toList, "#000".toList⟩]
      (some "username=bob".toList) = none ∧
    getUserFromCookies id (fun p => 'h' :: p)
      [⟨1, "alice".toList, "hpw".toList, "#fff".toList⟩,
       ⟨2, "bob".toList, "hpw".toList, "#000".toList⟩] none = none :=
  ⟨((getUserFromCookies_resolution id (fun p => 'h' :: p) _
      (some "username=bob; password=pw".toList)).1 _).mpr
      ⟨"bob".toList, "pw".toList, by decide, by decide, by decide,
        [⟨1, "alice".toList, "hpw".toList, "#fff".toList⟩], [], by decide, by decide⟩,
   (getUserFromCookies_resolution id (fun p => 'h' :: p) _
      (some "username=bob".toList)).2.2.2.1 (by decide),
   (getUserFromCookies_resolution id (fun p => 'h' :: p) _ none).2.1 rfl⟩

/-! ## Claims on the server message handler -/

theorem not_mem_replaceFirst (pat c : Char) (s : Str) (h : c ∉ s) : c ∉ replaceFirst pat s := by
  induction s with
  | nil => simp [replaceFirst]
  | cons x xs ih =>
    have hx : c ≠ x := fun e => h (by simp [e])
    have hxs : c ∉ xs := fun e => h (by simp [e])
    unfold replaceFirst
    split_ifs
    · exact hxs
    · simp [hx, ih hxs]

theorem parseMessage_content_of_no_semicolon (data : Str) (h : ';' ∉ data) :
    (parseMessage data).content = [] := by
  unfold parseMessage parseMessageWith
  rw [split_of_not_mem _ _ (not_mem_replaceFirst _ _ _ h)]
  rfl

/-- C4. Empty content is a no-op: for every frame whose content decodes to
the empty string, and so for every frame without `;`, the message handler
leaves the server state unchanged: no row is appended, no query is issued and
no frame is sent to any connection. -/
theorem empty_content_is_noop (users : List User) (st : ServerState) (user : User) (now : Int)
    (data : Str) (h : (parseMessage data).content = [] ∨ ';' ∉ data) :
    (parseMessage data).content = [] ∧ step users st (.frame user now data) = st := by
  have hc : (parseMessage data).content = [] :=
    h.elim id (parseMessage_content_of_no_semicolon data)
  exact ⟨hc, by simp [step, hc]⟩

/-- Witness of C4 at the frames `hello` (no `;`) and `5;` (empty content),
received while one query is pending and one frame has been sent. -/
theorem empty_content_is_noop_witness :
    step [] ⟨[⟨1, none, 1000, 1, "a".toList⟩], 2, 1, [Query.selectLastInsert], [0, 1],
        [(0, "x".toList)]⟩
      (.frame ⟨1, "alice".toList, [], "#fff".toList⟩ 2000 "hello".toList) =
      ⟨[⟨1, none, 1000, 1, "a".toList⟩], 2, 1, [Query.selectLastInsert], [0, 1],
        [(0, "x".toList)]⟩ ∧
    step [] ⟨[⟨1, none, 1000, 1, "a".toList⟩], 2, 1, [Query.selectLastInsert], [0, 1],
        [(0, "x".toList)]⟩
      (.frame ⟨1, "alice".toList, [], "#fff".toList⟩ 2000 "5;".toList) =
      ⟨[⟨1, none, 1000, 1, "a".toList⟩], 2, 1, [Query.selectLastInsert], [0, 1],
        [(0, "x".toList)]⟩ :=
  ⟨(empty_content_is_noop _ _ _ _ "hello".toList (Or.inr (by decide))).2,
   (empty_content_is_noop _ _ _ _ "5;".toList (Or.inl (by decide))).2⟩

/-- C5 (the code departs from the claim). Two frames, `;a` from alice and
`;b` from bob, arrive before the database has answered the first `INSERT`.
Both `INSERT`s are then ahead of both `SELECT ... WHERE id=LAST_INSERT_ID()`
queries on the connection, so both broadcasts carry row 2: row 1 is never
broadcast and row 2 is broadcast twice.  When the second frame arrives after
the first broadcast, each row is broadcast once. -/
theorem broadcast_follows_last_insert_id :
    (run [⟨1, "alice".toList, [], "#fff".toList⟩, ⟨2, "bob".toList, [], "#000".toList⟩]
        ⟨[], 1, 0, [], [0, 1], []⟩
        [.frame ⟨1, "alice".toList, [], "#fff".toList⟩ 1000 ";a".toList,
         .frame ⟨2, "bob".toList, [], "#000".toList⟩ 1001 ";b".toList,
         .queryDone false, .queryDone false, .queryDone false, .queryDone false]) =
      ⟨[⟨1, none, 1000, 1, "a".toList⟩, ⟨2, none, 1001, 2, "b".toList⟩], 3, 2, [], [0, 1],
        [(0, "2;;1001;bob;#000;b".toList), (1, "2;;1001;bob;#000;b".toList),
         (0, "2;;1001;bob;#000;b".toList), (1, "2;;1001;bob;#000;b".toList)]⟩ ∧
    (run [⟨1, "alice".toList, [], "#fff".toList⟩, ⟨2, "bob".toList, [], "#000".toList⟩]
        ⟨[], 1, 0, [], [0, 1], []⟩
        [.frame ⟨1, "alice".toList, [], "#fff".toList⟩ 1000 ";a".toList,
         .queryDone false, .queryDone false,
         .frame ⟨2, "bob".toList, [], "#000".toList⟩ 1001 ";b".toList,
         .queryDone false, .queryDone false]) =
      ⟨[⟨1, none, 1000, 1, "a".toList⟩, ⟨2, none, 1001, 2, "b".toList⟩], 3, 2, [], [0, 1],
        [(0, "1;;1000;alice;#fff;a".toList), (1, "1;;1000;alice;#fff;a".toList),
         (0, "2;;1001;bob;#000;b".toList), (1, "2;;1001;bob;#000;b".toList)]⟩ := by
  decide

/-! ## Claims on rendering -/

/-- C8 as stated fails. With an empty cache, the message 2 that replies to
the absent message 7 renders as its own content only: the output is the text
below, and the error span of `embedError` does not occur in it. -/
theorem dangling_reply_shows_no_placeholder :
    (embedMessage (fun _ => 0) 0 []
      ⟨.int 2, some (.int 7), .int 0, some "bob".toList, some "#000".toList, "hi".toList⟩).1 =
      ("\n    <div class=\"message\" id=\"2\" onclick=\"setReply(2)\">\n        " ++
       "\n        " ++
       "\n    <span class=\"message-date\">01/01 00:00</span>" ++
       "\n    <span class=\"message-sender\" style=\"color: #000\">bob</span>" ++
       "\n    :\n    <span class=\"message-content\">hi</span>\n    " ++
       "\n    </div>\n    ").toList ∧
    ¬ (embedError "Message introuvable".toList <:+:
      (embedMessage (fun _ => 0) 0 []
        ⟨.int 2, some (.int 7), .int 0, some "bob".toList, some "#000".toList,
          "hi".toList⟩).1) ∧
    ¬ ("class=\"error\"".toList <:+:
      (embedMessage (fun _ => 0) 0 []
        ⟨.int 2, some (.int 7), .int 0, some "bob".toList, some "#000".toList,
          "hi".toList⟩).1) := by
  decide

/-- C8, amended. For every cache and every message whose reply id equals the
id of no cached message, `embedMessage` puts the empty string where the
replied-to message would stand: the output is the frame of the message around
its own content, the same as for the message without a reply id. -/
theorem dangling_reply_renders_as_no_reply (tz : Int → Int) (lastIndex : Nat)
    (messages : List Message) (message : Message)
    (h : ∀ m ∈ messages, looseEq m.id message.reply = false) :
    embedMessage tz lastIndex messages message =
      ("\n    <div class=\"message\" id=\"".toList ++ numToString message.id ++
       "\" onclick=\"setReply(".toList ++ numToString message.id ++ ")\">\n        ".toList ++
       [] ++ "\n        ".toList ++ (embedMessageContent tz lastIndex message).1 ++
       "\n    </div>\n    ".toList, (embedMessageContent tz lastIndex message).2) ∧
    embedMessage tz lastIndex messages message =
      embedMessage tz lastIndex messages { message with reply := none } := by
  have h1 : getMessageById messages message.reply = none := by
    unfold getMessageById
    rw [List.find?_eq_none]
    intro m hm
    simp [h m hm]
  have h2 : getMessageById messages none = none := by
    unfold getMessageById
    rw [List.find?_eq_none]
    intro m _
    cases hid : m.id <;> simp [looseEq]
  constructor
  · simp only [embedMessage, h1]
  · simp only [embedMessage, h1, h2, embedMessageContent]

/-- Witness of the amended C8: the cache holds message 1 only and message 2
replies to message 7. -/
theorem dangling_reply_renders_as_no_reply_witness :
    embedMessage (fun _ => 0) 0
      [⟨.int 1, none, .int 0, some "alice".toList, some "#fff".toList, "a".toList⟩]
      ⟨.int 2, some (.int 7), .int 0, some "bob".toList, some "#000".toList, "hi".toList⟩ =
    embedMessage (fun _ => 0) 0
      [⟨.int 1, none, .int 0, some "alice".toList, some "#fff".toList, "a".toList⟩]
      ⟨.int 2, none, .int 0, some "bob".toList, some "#000".toList, "hi".toList⟩ :=
  (dangling_reply_renders_as_no_reply (fun _ => 0) 0
    [⟨.int 1, none, .int 0, some "alice".toList, some "#fff".toList, "a".toList⟩]
    ⟨.int 2, some (.int 7), .int 0, some "bob".toList, some "#000".toList, "hi".toList⟩
    (by decide)).2

/-- C9 (the code departs from the claim). The message with content
`img:https://example.com/a.png` is rendered twice in a row, starting from a
fresh `urlPattern`.  The first call renders the image and leaves `lastIndex`
at 25, the end of the match; the second call therefore searches from position
25, finds nothing, and renders the content as text with a link, not as an
image.  In the same way, of two image messages in one history frame only the
first is rendered as an image. -/
theorem image_directive_depends_on_lastIndex :
    embedMessageContent (fun _ => 0) 0
      ⟨.int 1, none, .int 0, some "alice".toList, some "#fff".toList,
        "img:https://example.com/a.png".toList⟩ =
      (("\n    <span class=\"message-date\">01/01 00:00</span>" ++
        "\n    <span class=\"message-sender\" style=\"color: #fff\">alice</span>" ++
        "\n    :\n    <span class=\"message-content\">" ++
        "<img src=\"https://example.com/a.png\">" ++ "</span>\n    ").toList, 25) ∧
    embedMessageContent (fun _ => 0) 25
      ⟨.int 1, none, .int 0, some "alice".toList, some "#fff".toList,
        "img:https://example.com/a.png".toList⟩ =
      (("\n    <span class=\"message-date\">01/01 00:00</span>" ++
        "\n    <span class=\"message-sender\" style=\"color: #fff\">alice</span>" ++
        "\n    :\n    <span class=\"message-content\">" ++
        "img:<a href=\"https://example.com/a.png\">https://example.com/a.png</a>" ++
        "</span>\n    ").toList, 0) ∧
    ((onWebSocketMessage (fun _ => 0) ⟨[], [], 0⟩
        (encodeFrame
          [⟨.int 1, none, .int 0, some "alice".toList, some "#fff".toList,
             "img:https://example.com/a.png".toList⟩,
           ⟨.int 2, none, .int 0, some "bob".toList, some "#000".toList,
             "img:https://example.com/b.png".toList⟩])).view.map
      (fun html => decide ("<img src=".toList <:+: html))) = [true, false] := by
  decide

/-! ## Claims on the client session -/

theorem foldl_appendMessage_messages (tz : Int → Int) (ms : List Message) (st : ClientState) :
    (ms.foldl (appendMessage tz) st).messages = st.messages ++ ms := by
  induction ms generalizing st with
  | nil => simp
  | cons m rest ih => simp [ih, appendMessage]

theorem onWebSocketMessage_messages (tz : Int → Int) (st : ClientState) (data : Str) :
    (onWebSocketMessage tz st data).messages =
      (if 1 < (parseNewMessages data).length then [] else st.messages) ++
        parseNewMessages data := by
  unfold onWebSocketMessage
  simp only [foldl_appendMessage_messages]
  split_ifs <;> rfl

/-- C10 as stated fails. A client connects while the history holds the
single record `1;;1000;alice;#fff;hello`, is disconnected and connects again:
after the second history frame the cache holds that message twice, so it is
not the list of records of the frame and two cached messages share an id. -/
theorem single_record_history_is_appended :
    (onWebSocketMessage (fun _ => 0)
      (onWebSocketMessage (fun _ => 0) ⟨[], [], 0⟩ "1;;1000;alice;#fff;hello".toList)
      "1;;1000;alice;#fff;hello".toList).messages =
      [⟨.int 1, none, .int 1000, some "alice".toList, some "#fff".toList, "hello".toList⟩,
       ⟨.int 1, none, .int 1000, some "alice".toList, some "#fff".toList, "hello".toList⟩] ∧
    (onWebSocketMessage (fun _ => 0)
      (onWebSocketMessage (fun _ => 0) ⟨[], [], 0⟩ "1;;1000;alice;#fff;hello".toList)
      "1;;1000;alice;#fff;hello".toList).messages ≠
      parseNewMessages "1;;1000;alice;#fff;hello".toList := by
  decide

/-- C10, amended. When the client handles a frame that decodes to more than
one record, its cache afterwards is exactly the list of records decoded from
that frame, in order, whatever the cache held before.  When the frame decodes
to zero or one record, these records are appended to the cache as it was; the
cache then is the list of decoded records only if it was empty before, as on
the first connection. -/
theorem history_replaces_cache (tz : Int → Int) (st : ClientState) (data : Str) :
    (1 < (parseNewMessages data).length →
      (onWebSocketMessage tz st data).messages = parseNewMessages data) ∧
    (¬ 1 < (parseNewMessages data).length →
      (onWebSocketMessage tz st data).messages = st.messages ++ parseNewMessages data) ∧
    (st.messages = [] →
      (onWebSocketMessage tz st data).messages = parseNewMessages data) := by
  rw [onWebSocketMessage_messages]
  refine ⟨fun h => ?_, fun h => ?_, fun h => ?_⟩
  · simp [h]
  · simp [h]
  · split_ifs <;> simp [h]

/-- Witness of the amended C10: a cache holding a stale message is replaced
by a history frame of two records; a frame of one record is appended to it;
the empty frame leaves it as it was; and an empty cache takes the record of a
one-record frame. -/
theorem history_replaces_cache_witness :
    (onWebSocketMessage (fun _ => 0)
      ⟨[⟨.int 9, none, .int 5, some "carol".toList, some "#0f0".toList, "old".toList⟩], [], 0⟩
      (encodeFrame
        [⟨.int 1, none, .int 1000, some "alice".toList, some "#fff".toList, "hello".toList⟩,
         ⟨.int 2, some (.int 1), .int 2000, some "bob".toList, some "red".toList,
           "a;b".toList⟩])).messages =
      [⟨.int 1, none, .int 1000, some "alice".toList, some "#fff".toList, "hello".toList⟩,
       ⟨.int 2, some (.int 1), .int 2000, some "bob".toList, some "red".toList, "a;b".toList⟩] ∧
    (onWebSocketMessage (fun _ => 0)
      ⟨[⟨.int 9, none, .int 5, some "carol".toList, some "#0f0".toList, "old".toList⟩], [], 0⟩
      "1;;1000;alice;#fff;hello".toList).messages =
      [⟨.int 9, none, .int 5, some "carol".toList, some "#0f0".toList, "old".toList⟩,
       ⟨.int 1, none, .int 1000, some "alice".toList, some "#fff".toList, "hello".toList⟩] ∧
    (onWebSocketMessage (fun _ => 0)
      ⟨[⟨.int 9, none, .int 5, some "carol".toList, some "#0f0".toList, "old".toList⟩], [], 0⟩
      []).messages =
      [⟨.int 9, none, .int 5, some "carol".toList, some "#0f0".toList, "old".toList⟩] ∧
    (onWebSocketMessage (fun _ => 0) ⟨[], [], 0⟩ "1;;1000;alice;#fff;hello".toList).messages =
      [⟨.int 1, none, .int 1000, some "alice".toList, some "#fff".toList, "hello".toList⟩] :=
  ⟨((history_replaces_cache (fun _ => 0) _ _).1 (by decide)).trans (by decide),
   ((history_replaces_cache (fun _ => 0) _ _).2.1 (by decide)).trans (by decide),
   ((history_replaces_cache (fun _ => 0) _ _).2.1 (by decide)).trans (by decide),
   ((history_replaces_cache (fun _ => 0) _ _).2.2 rfl).trans (by decide)⟩

end Chat2
